import Mathlib

/-!
Shallow embedding of the paint-program core (grid of layer stores plus
undo/redo and record/replay trackers) together with proofs about the
claimed properties of its operations.

Sources embedded from `src/`: `layer_store.py`, `grid.py`, `undo.py`,
`replay.py`.  The repository's scaffold modules (`data_structures/*`,
`action.py`, `layer_util.py`, `layers.py`) are not part of `src/`; the
definitions standing in for them are modelled from the spec and say so in
their doc comments.
-/

set_option autoImplicit false

namespace Paint

/-- A colour is three integer channels (spec §6). -/
abbrev Color := Nat × Nat × Nat

/-- Modelled from the spec: `layer_util.py` is absent from `src/`.  A
`Layer` is an immutable catalog-registered colour transform with a unique
`index`, a `name` used for lexicographic ordering, and a pure
`apply(color, timestamp, x, y)` function (spec §3). -/
structure Layer where
  index : Nat
  name : String
  apply : Color → Nat → Nat → Nat → Color

/-- Modelled from the spec: `data_structures/queue_adt.py` is absent from
`src/`.  A fixed-capacity FIFO queue ("fixed-capacity ring buffer", spec
§9); `items` lists the stored elements front first.  Capacity exhaustion
is a no-op rather than an error (spec §5, §7). -/
structure CircularQueue (α : Type) where
  capacity : Nat
  items : List α

namespace CircularQueue

def is_empty {α} (q : CircularQueue α) : Bool := q.items.isEmpty

def is_full {α} (q : CircularQueue α) : Bool := q.items.length == q.capacity

def len {α} (q : CircularQueue α) : Nat := q.items.length

/-- Append at the back; no-op when full (spec §5: capacity exhaustion is a
"no-op" signal, never an error). -/
def append {α} (q : CircularQueue α) (a : α) : CircularQueue α :=
  if q.is_full then q else { q with items := q.items ++ [a] }

/-- Serve (dequeue) the front element; `none` on an empty queue (the
Python scaffold raises there, which the callers in `src/` catch). -/
def serve {α} (q : CircularQueue α) : Option (α × CircularQueue α) :=
  match q.items with
  | [] => none
  | a :: rest => some (a, { q with items := rest })

end CircularQueue

/-- Modelled from the spec: `data_structures/stack_adt.py` is absent from
`src/`.  A fixed-capacity LIFO stack; `items` lists the stored elements
top first.  Capacity exhaustion is a no-op rather than an error (spec §5,
§7). -/
structure ArrayStack (α : Type) where
  capacity : Nat
  items : List α

namespace ArrayStack

def is_empty {α} (s : ArrayStack α) : Bool := s.items.isEmpty

def is_full {α} (s : ArrayStack α) : Bool := s.items.length == s.capacity

def len {α} (s : ArrayStack α) : Nat := s.items.length

/-- Push on top; no-op when full (spec §5). -/
def push {α} (s : ArrayStack α) (a : α) : ArrayStack α :=
  if s.is_full then s else { s with items := a :: s.items }

/-- Pop the top element; `none` on an empty stack. -/
def pop {α} (s : ArrayStack α) : Option (α × ArrayStack α) :=
  match s.items with
  | [] => none
  | a :: rest => some (a, { s with items := rest })

end ArrayStack

/-!  ## AdditiveLayerStore (`src/layer_store.py` lines 139–239) -/

/-- `AdditiveLayerStore.MAX_CAPACITY = 100*9` (`layer_store.py` line 148). -/
def AdditiveLayerStore.MAX_CAPACITY : Nat := 100 * 9

/-- An additive layer store holds a bounded FIFO queue of layers
(`layer_store.py` lines 150–154). -/
structure AdditiveLayerStore where
  current_layers : CircularQueue Layer

namespace AdditiveLayerStore

/-- `__init__`: a fresh queue of capacity `MAX_CAPACITY`
(`layer_store.py` lines 150–154). -/
def init : AdditiveLayerStore :=
  ⟨⟨MAX_CAPACITY, []⟩⟩

/-- `add` (`layer_store.py` lines 156–172): returns `False` when full,
otherwise appends the layer at the back and returns `True`. -/
def add (s : AdditiveLayerStore) (layer : Layer) : Bool × AdditiveLayerStore :=
  if s.current_layers.is_full then (false, s)
  else (true, ⟨s.current_layers.append layer⟩)

/-- `erase` (`layer_store.py` lines 174–189): the parameter is ignored;
returns `False` when empty, otherwise serves (removes) the oldest layer
and returns `True`. -/
def erase (s : AdditiveLayerStore) (_layer : Layer) : Bool × AdditiveLayerStore :=
  if s.current_layers.is_empty then (false, s)
  else
    match s.current_layers.serve with
    | none => (false, s)
    | some (_, q) => (true, ⟨q⟩)

/-- The first loop of `special` (`layer_store.py` lines 204–206): serve
each element of the queue and push it onto the temporary stack. -/
def specialDrain : Nat → CircularQueue Layer → ArrayStack Layer →
    CircularQueue Layer × ArrayStack Layer
  | 0, q, st => (q, st)
  | n + 1, q, st =>
    match q.serve with
    | none => (q, st)
    | some (layer, q1) => specialDrain n q1 (st.push layer)

/-- The second loop of `special` (`layer_store.py` lines 208–210): pop
each element of the stack and append it to the queue. -/
def specialRefill : Nat → ArrayStack Layer → CircularQueue Layer →
    ArrayStack Layer × CircularQueue Layer
  | 0, st, q => (st, q)
  | n + 1, st, q =>
    match st.pop with
    | none => (st, q)
    | some (layer, st1) => specialRefill n st1 (q.append layer)

/-- `special` (`layer_store.py` lines 191–210): no-op when empty;
otherwise drain the queue into a temporary stack of capacity
`MAX_CAPACITY`, then refill the queue from the stack, reversing the
order. -/
def special (s : AdditiveLayerStore) : AdditiveLayerStore :=
  if s.current_layers.is_empty then s
  else
    let (q1, st) := specialDrain s.current_layers.len s.current_layers ⟨MAX_CAPACITY, []⟩
    let (_, q2) := specialRefill st.len st q1
    ⟨q2⟩

/-- The loop of `get_color` (`layer_store.py` lines 234–237): serve a
layer, apply it to the running colour, and append it back. -/
def getColorLoop : Nat → CircularQueue Layer → Color → Nat → Nat → Nat →
    CircularQueue Layer × Color
  | 0, q, c, _, _, _ => (q, c)
  | n + 1, q, c, t, x, y =>
    match q.serve with
    | none => (q, c)
    | some (layer, q1) => getColorLoop n (q1.append layer) (layer.apply c t x y) t x y

/-- `get_color` (`layer_store.py` lines 212–239): folds `apply` over the
stored layers oldest first, cycling the queue; returns the resulting
colour together with the store as the loop leaves it. -/
def get_color (s : AdditiveLayerStore) (start : Color) (timestamp x y : Nat) :
    AdditiveLayerStore × Color :=
  if s.current_layers.is_empty then (s, start)
  else
    let (q, c) := getColorLoop s.current_layers.len s.current_layers start timestamp x y
    (⟨q⟩, c)

end AdditiveLayerStore

/-!  ## SetLayerStore (`src/layer_store.py` lines 51–136) -/

/-- A set layer store holds at most one layer and an inversion flag
(`layer_store.py` lines 62–68). -/
structure SetLayerStore where
  current_layer : Option Layer
  special_flag : Bool

namespace SetLayerStore

/-- `__init__` (`layer_store.py` lines 62–68). -/
def init : SetLayerStore := ⟨none, false⟩

/-- `add` (`layer_store.py` lines 70–85): replaces `current_layer` and
returns `True` unless the stored layer already equals the argument.
Python object equality of catalog layers is modelled by equality of their
unique catalog `index` (spec §3: `index` is unique). -/
def add (s : SetLayerStore) (layer : Layer) : Bool × SetLayerStore :=
  match s.current_layer with
  | some c => if c.index = layer.index then (false, s) else (true, { s with current_layer := some layer })
  | none => (true, { s with current_layer := some layer })

/-- `erase` (`layer_store.py` lines 87–102): parameter ignored; clears
the layer, returning `False` only when there was none. -/
def erase (s : SetLayerStore) (_layer : Layer) : Bool × SetLayerStore :=
  match s.current_layer with
  | none => (false, s)
  | some _ => (true, { s with current_layer := none })

/-- `special` (`layer_store.py` lines 104–113): toggles the instance
flag. -/
def special (s : SetLayerStore) : SetLayerStore :=
  if s.special_flag then { s with special_flag := false }
  else { s with special_flag := true }

end SetLayerStore

/-!  ## SequenceLayerStore (`src/layer_store.py` lines 242–324) -/

/-- Modelled from the spec: `data_structures/sorted_list_adt.py` is
absent from `src/`.  A `ListItem` pairs a stored value with the key it is
sorted by. -/
structure ListItem where
  value : Layer
  key : String

/-- Equality test used by the sorted list's membership and removal:
`ListItem`s agree when both the key and the value agree (the value, a
catalog layer, compared by its unique index as in `SetLayerStore.add`). -/
def ListItem.sameAs (a b : ListItem) : Bool :=
  a.key == b.key && a.value.index == b.value.index

/-- Lexicographic comparison of character lists by code point. -/
def charsLe : List Char → List Char → Bool
  | [], _ => true
  | _ :: _, [] => false
  | a :: as, b :: bs =>
    if a.val < b.val then true
    else if b.val < a.val then false
    else charsLe as bs

/-- Lexicographic string comparison by code point, standing in for the
Python string `<=` that orders the sorted list's keys. -/
def strLe (a b : String) : Bool := charsLe a.data b.data

/-- Modelled from the spec: `data_structures/array_sorted_list.py` is
absent from `src/`.  A fixed-capacity list kept sorted by key; `items`
lists the elements in ascending key order. -/
structure ArraySortedList where
  capacity : Nat
  items : List ListItem

namespace ArraySortedList

def is_empty (l : ArraySortedList) : Bool := l.items.isEmpty

def is_full (l : ArraySortedList) : Bool := l.items.length == l.capacity

def len (l : ArraySortedList) : Nat := l.items.length

/-- Insert keeping ascending key order. -/
def insertSorted : List ListItem → ListItem → List ListItem
  | [], it => [it]
  | x :: xs, it => if strLe it.key x.key then it :: x :: xs else x :: insertSorted xs it

/-- `add`: insert the item at its sorted position. -/
def add (l : ArraySortedList) (item : ListItem) : ArraySortedList :=
  { l with items := insertSorted l.items item }

/-- Membership test (`in`): some stored item equals the probe. -/
def contains (l : ArraySortedList) (item : ListItem) : Bool :=
  l.items.any (fun it => it.sameAs item)

/-- `delete_at_index`: remove and return the item at a position (the
Python scaffold raises on an out-of-range index; that case returns
`none` and leaves the list unchanged here). -/
def delete_at_index (l : ArraySortedList) (i : Nat) : Option ListItem × ArraySortedList :=
  (l.items.get? i, { l with items := l.items.eraseIdx i })

/-- `remove`: delete the first stored item equal to the probe (the
Python scaffold raises when the item is absent; that case is a no-op
here). -/
def remove (l : ArraySortedList) (item : ListItem) : ArraySortedList :=
  { l with items := l.items.eraseP (fun it => it.sameAs item) }

end ArraySortedList

/-- Modelled from the spec: `data_structures/bset.py` is absent from
`src/`.  A bit-vector set of positive integers, modelled as a duplicate-free
list; only membership, size, insertion and removal are used. -/
structure BSet where
  items : List Nat

namespace BSet

def is_empty (b : BSet) : Bool := b.items.isEmpty

def len (b : BSet) : Nat := b.items.length

def contains (b : BSet) (n : Nat) : Bool := b.items.contains n

def add (b : BSet) (n : Nat) : BSet :=
  if b.items.contains n then b else ⟨n :: b.items⟩

def remove (b : BSet) (n : Nat) : BSet :=
  ⟨b.items.erase n⟩

end BSet

/-- `SequenceLayerStore.MAX_CAPACITY = 1000` (`layer_store.py` line 254). -/
def SequenceLayerStore.MAX_CAPACITY : Nat := 1000

/-- A sequence layer store keeps two synchronized views of the active
layers: one sorted by name, one a set of catalog indexes
(`layer_store.py` lines 257–263). -/
structure SequenceLayerStore where
  current_layers_name : ArraySortedList
  current_layers_index : BSet

namespace SequenceLayerStore

/-- `__init__` (`layer_store.py` lines 257–263). -/
def init : SequenceLayerStore :=
  ⟨⟨MAX_CAPACITY, []⟩, ⟨[]⟩⟩

/-- `add` (`layer_store.py` lines 265–287): refuse when full or already
present; otherwise insert `ListItem(layer, layer.name)` in the name view
and `layer.index + 1` in the index view. -/
def add (s : SequenceLayerStore) (layer : Layer) : Bool × SequenceLayerStore :=
  let list_layer_name : ListItem := ⟨layer, layer.name⟩
  if s.current_layers_name.is_full || s.current_layers_name.contains list_layer_name then
    (false, s)
  else
    (true, ⟨s.current_layers_name.add list_layer_name,
            s.current_layers_index.add (layer.index + 1)⟩)

/-- `erase` (`layer_store.py` lines 289–299): refuse when the name view
is empty or `layer.index` (as written — not `layer.index + 1`) is not in
the index view; otherwise remove `ListItem(layer, layer.name)` from the
name view and `layer.index + 1` from the index view. -/
def erase (s : SequenceLayerStore) (layer : Layer) : Bool × SequenceLayerStore :=
  if s.current_layers_name.is_empty || !(s.current_layers_index.contains layer.index) then
    (false, s)
  else
    (true, ⟨s.current_layers_name.remove ⟨layer, layer.name⟩,
            s.current_layers_index.remove (layer.index + 1)⟩)

/-- `special` (`layer_store.py` lines 301–312): no-op when the name view
is empty; otherwise delete position `(len(index view) - 1) // 2` of the
name view and the deleted layer's `index + 1` from the index view. -/
def special (s : SequenceLayerStore) : SequenceLayerStore :=
  if s.current_layers_name.is_empty then s
  else
    let lexicographically_smaller_median := (s.current_layers_index.len - 1) / 2
    match s.current_layers_name.delete_at_index lexicographically_smaller_median with
    | (none, _) => s
    | (some layer_item_name, rest) =>
      ⟨rest, s.current_layers_index.remove (layer_item_name.value.index + 1)⟩

end SequenceLayerStore

/-!  ## Grid (`src/grid.py`) -/

/-- The closed set of layer-store variants behind the `LayerStore`
interface (`layer_store.py` line 15; spec §9: a closed tagged variant). -/
inductive LayerStoreV : Type
  | set (s : SetLayerStore)
  | additive (s : AdditiveLayerStore)
  | sequence (s : SequenceLayerStore)

namespace LayerStoreV

/-- Polymorphic `add` dispatch. -/
def add (v : LayerStoreV) (layer : Layer) : Bool × LayerStoreV :=
  match v with
  | set s => let (b, s1) := s.add layer; (b, set s1)
  | additive s => let (b, s1) := s.add layer; (b, additive s1)
  | sequence s => let (b, s1) := s.add layer; (b, sequence s1)

/-- Polymorphic `erase` dispatch. -/
def erase (v : LayerStoreV) (layer : Layer) : Bool × LayerStoreV :=
  match v with
  | set s => let (b, s1) := s.erase layer; (b, set s1)
  | additive s => let (b, s1) := s.erase layer; (b, additive s1)
  | sequence s => let (b, s1) := s.erase layer; (b, sequence s1)

/-- Polymorphic `special` dispatch. -/
def special (v : LayerStoreV) : LayerStoreV :=
  match v with
  | set s => set s.special
  | additive s => additive s.special
  | sequence s => sequence s.special

end LayerStoreV

/-- The grid (`grid.py` lines 7–51): a rectangular array of layer stores
plus brush-size state.  The embedded trackers created in `__init__` are
kept outside the grid record; the claims exercise them through explicit
state passing. -/
structure Grid where
  draw_style : String
  x : Nat
  y : Nat
  brush_size : Nat
  grid : List (List LayerStoreV)

namespace Grid

def DRAW_STYLE_SET : String := "SET"
def DRAW_STYLE_ADD : String := "ADD"
def DRAW_STYLE_SEQUENCE : String := "SEQUENCE"
def DEFAULT_BRUSH_SIZE : Nat := 2
def MAX_OPERATIONS : Nat := 10000

/-- The store `initialising_grid` places in every cell (`grid.py` lines
71–77): `SequenceLayerStore` for the sequence style, `AdditiveLayerStore`
for the additive style, `SetLayerStore` otherwise. -/
def cellFor (draw_style : String) : LayerStoreV :=
  if draw_style = DRAW_STYLE_SEQUENCE then .sequence SequenceLayerStore.init
  else if draw_style = DRAW_STYLE_ADD then .additive AdditiveLayerStore.init
  else .set SetLayerStore.init

/-- `initialising_grid` (`grid.py` lines 55–78): an `x`-by-`y` array of
fresh stores of the style's variant. -/
def initialising_grid (draw_style : String) (x y : Nat) : List (List LayerStoreV) :=
  List.replicate x (List.replicate y (cellFor draw_style))

/-- `__init__` (`grid.py` lines 23–51). -/
def init (draw_style : String) (x y : Nat) : Grid :=
  ⟨draw_style, x, y, DEFAULT_BRUSH_SIZE, initialising_grid draw_style x y⟩

/-- Replace the element at a position of a list, leaving the list
unchanged when the position is out of range. -/
def setAt {α : Type} : List α → Nat → α → List α
  | [], _, _ => []
  | _ :: rest, 0, a => a :: rest
  | b :: rest, n + 1, a => b :: setAt rest n a

/-- Read a cell's store, `none` when out of range. -/
def getCell (g : Grid) (i j : Nat) : Option LayerStoreV :=
  (g.grid.get? i).bind (fun row => row.get? j)

/-- Write a cell's store (no-op out of range). -/
def setCell (g : Grid) (i j : Nat) (v : LayerStoreV) : Grid :=
  match g.grid.get? i with
  | none => g
  | some row => { g with grid := setAt g.grid i (setAt row j v) }

/-- `special` (`grid.py` lines 102–119): trigger `special` on every grid
square. -/
def special (g : Grid) : Grid :=
  { g with grid := g.grid.map (fun row => row.map LayerStoreV.special) }

end Grid

/-!  ## PaintAction (spec §3, §4.6; `action.py` is absent from `src/`) -/

/-- A cell edit's operation: add or erase a layer (spec §3). -/
inductive PaintOp : Type
  | add
  | erase

/-- Modelled from the spec: `action.py` is absent from `src/`.  One cell
edit `(x, y, layer, op)` of a paint action (spec §3). -/
structure PaintStep where
  x : Nat
  y : Nat
  layer : Layer
  op : PaintOp

/-- Modelled from the spec: `action.py` is absent from `src/`.  A
`PaintAction` is an ordered sequence of cell edits, or a special marker
with an empty edit sequence (spec §3). -/
structure PaintAction where
  steps : List PaintStep
  is_special : Bool

namespace PaintStep

/-- Apply one edit forward: `add` adds the layer to the cell's store,
`erase` erases at the cell (spec §3). -/
def applyForward (g : Grid) (st : PaintStep) : Grid :=
  match Grid.getCell g st.x st.y with
  | none => g
  | some v =>
    match st.op with
    | .add => Grid.setCell g st.x st.y (v.add st.layer).2
    | .erase => Grid.setCell g st.x st.y (v.erase st.layer).2

/-- Apply one edit inverted: re-erase a cell that was added, re-add a
cell that was erased (spec §4.6). -/
def applyInverse (g : Grid) (st : PaintStep) : Grid :=
  match Grid.getCell g st.x st.y with
  | none => g
  | some v =>
    match st.op with
    | .add => Grid.setCell g st.x st.y (v.erase st.layer).2
    | .erase => Grid.setCell g st.x st.y (v.add st.layer).2

end PaintStep

namespace PaintAction

/-- Modelled from the spec: the action's forward effect — `grid.special`
for a special marker, otherwise its edits applied in order (spec §3,
§4.6). -/
def redo_apply (a : PaintAction) (g : Grid) : Grid :=
  if a.is_special then g.special
  else a.steps.foldl PaintStep.applyForward g

/-- Modelled from the spec: the action's inverse effect — `special`
again for a special marker (its own inverse), otherwise the inverted
edits in reverse order (spec §4.6). -/
def undo_apply (a : PaintAction) (g : Grid) : Grid :=
  if a.is_special then g.special
  else a.steps.reverse.foldl PaintStep.applyInverse g

end PaintAction

/-!  ## UndoTracker (`src/undo.py`) -/

/-- `UndoTracker.MAX_OPERATIONS = 10000` (`undo.py` line 7). -/
def UndoTracker.MAX_OPERATIONS : Nat := 10000

/-- An undo tracker holds two bounded stacks of actions
(`undo.py` lines 9–15). -/
structure UndoTracker where
  undo_stack : ArrayStack PaintAction
  redo_stack : ArrayStack PaintAction

namespace UndoTracker

/-- `__init__` (`undo.py` lines 9–15): two fresh stacks of capacity
`MAX_OPERATIONS`. -/
def init : UndoTracker :=
  ⟨⟨MAX_OPERATIONS, []⟩, ⟨MAX_OPERATIONS, []⟩⟩

/-- `clear_redo` (`undo.py` lines 33–37): replace the redo stack with a
fresh one. -/
def clear_redo (t : UndoTracker) : UndoTracker :=
  { t with redo_stack := ⟨MAX_OPERATIONS, []⟩ }

/-- `add_action` (`undo.py` lines 17–31): when the undo stack is full,
exit early without adding; otherwise push the action and clear the redo
stack. -/
def add_action (t : UndoTracker) (action : PaintAction) : UndoTracker :=
  if t.undo_stack.is_full then t
  else (clear_redo { t with undo_stack := t.undo_stack.push action })

/-- `undo` (`undo.py` lines 39–58): pop the top action, push it onto the
redo stack, apply its inverse to the grid, and return it; `none` and
no-op when the undo stack is empty. -/
def undo (t : UndoTracker) (g : Grid) : UndoTracker × Grid × Option PaintAction :=
  match t.undo_stack.pop with
  | none => (t, g, none)
  | some (action, rest) =>
    (⟨rest, t.redo_stack.push action⟩, action.undo_apply g, some action)

/-- `redo` (`undo.py` lines 60–77): pop the top redone action, push it
back onto the undo stack, re-apply its forward effect, and return it;
`none` and no-op when the redo stack is empty. -/
def redo (t : UndoTracker) (g : Grid) : UndoTracker × Grid × Option PaintAction :=
  match t.redo_stack.pop with
  | none => (t, g, none)
  | some (action, rest) =>
    (⟨t.undo_stack.push action, rest⟩, action.redo_apply g, some action)

/-- A sequence of `add_action` calls. -/
def addActions (t : UndoTracker) (acts : List PaintAction) : UndoTracker :=
  acts.foldl add_action t

/-- `n` consecutive `undo` calls, collecting the returned actions in call
order. -/
def undoN : Nat → UndoTracker → Grid → UndoTracker × Grid × List (Option PaintAction)
  | 0, t, g => (t, g, [])
  | n + 1, t, g =>
    let (t1, g1, r) := t.undo g
    let (t2, g2, rs) := undoN n t1 g1
    (t2, g2, r :: rs)

/-- `n` consecutive `redo` calls, collecting the returned actions in call
order. -/
def redoN : Nat → UndoTracker → Grid → UndoTracker × Grid × List (Option PaintAction)
  | 0, t, g => (t, g, [])
  | n + 1, t, g =>
    let (t1, g1, r) := t.redo g
    let (t2, g2, rs) := redoN n t1 g1
    (t2, g2, r :: rs)

end UndoTracker

/-!  ## ReplayTracker (`src/replay.py`)

`replay_queue` and `playback_queue` are class attributes (`replay.py`
lines 11–13), and every method reads and writes `ReplayTracker.…`, never
`self.…`.  The embedding therefore keeps the two queues in a single
class-level state record, and each method takes the identity of the
instance it was invoked on as an extra argument that its body never
consults — exactly as the Python methods ignore `self`. -/

/-- `ReplayTracker.MAX_CAPACITY = 10000` (`replay.py` line 11). -/
def ReplayTracker.MAX_CAPACITY : Nat := 10000

/-- The class-level state of `ReplayTracker`: the recording queue and the
playback queue (`replay.py` lines 11–13). -/
structure ReplayClassState where
  replay_queue : CircularQueue (PaintAction × Bool)
  playback_queue : CircularQueue (PaintAction × Bool)

namespace ReplayTracker

/-- The initial class state: two fresh queues of capacity `MAX_CAPACITY`
(`replay.py` lines 11–13). -/
def initState : ReplayClassState :=
  ⟨⟨MAX_CAPACITY, []⟩, ⟨MAX_CAPACITY, []⟩⟩

/-- `reset_replay_queue` (`replay.py` lines 24–28): replace the class
recording queue with a fresh `CircularQueue(10000)`. -/
def reset_replay_queue (_self : Nat) (s : ReplayClassState) : ReplayClassState :=
  { s with replay_queue := ⟨10000, []⟩ }

/-- `add_action` (`replay.py` lines 30–37): append `(action, is_undo)`
to the class recording queue. -/
def add_action (_self : Nat) (s : ReplayClassState) (action : PaintAction)
    (is_undo : Bool) : ReplayClassState :=
  { s with replay_queue := s.replay_queue.append (action, is_undo) }

/-- `start_replay` (`replay.py` lines 14–22): the class playback queue
becomes the recording queue, which is then reset. -/
def start_replay (self : Nat) (s : ReplayClassState) : ReplayClassState :=
  reset_replay_queue self { s with playback_queue := s.replay_queue }

/-- `play_next_action` (`replay.py` lines 39–72): serve the next pair
from the class playback queue.  On an empty queue, reset the recording
queue and return `true`; otherwise apply the undo effect, the grid-wide
special, or the forward effect according to the pair, and return
`false`. -/
def play_next_action (self : Nat) (s : ReplayClassState) (g : Grid) :
    Bool × ReplayClassState × Grid :=
  match s.playback_queue.serve with
  | none => (true, reset_replay_queue self s, g)
  | some ((action, is_undo), rest) =>
    let s1 : ReplayClassState := { s with playback_queue := rest }
    if is_undo then (false, s1, action.undo_apply g)
    else if action.is_special then (false, s1, g.special)
    else (false, s1, action.redo_apply g)

/-- A sequence of `add_action` calls with `is_undo = false`. -/
def addActions (self : Nat) (s : ReplayClassState) (acts : List PaintAction) :
    ReplayClassState :=
  acts.foldl (fun st a => add_action self st a false) s

end ReplayTracker

/-!  ## Concrete layers used by witnesses -/

/-- A concrete catalog layer used in witnesses. -/
def layerA : Layer := ⟨0, "a", fun c _ _ _ => c⟩

/-- A concrete catalog layer used in witnesses. -/
def layerB : Layer := ⟨1, "b", fun c _ _ _ => (c.1 + 1, c.2.1, c.2.2)⟩

/-- A concrete catalog layer used in witnesses. -/
def layerC : Layer := ⟨2, "c", fun c _ _ _ => c⟩

/-- A concrete catalog layer used in witnesses. -/
def layerD : Layer := ⟨3, "d", fun c _ _ _ => c⟩

/-- A draw action with no edits, used in witnesses. -/
def blankAction : PaintAction := ⟨[], false⟩

/-!  ## Lemmas about the additive store's queue cycling -/

/-- One pass of `getColorLoop` rotates the first `k` queue elements to the
back while folding their `apply` over the colour. -/
theorem getColorLoop_spec (t x y : Nat) :
    ∀ (k cap : Nat) (l : List Layer) (c : Color),
      k ≤ l.length → l.length ≤ cap →
      AdditiveLayerStore.getColorLoop k ⟨cap, l⟩ c t x y =
        (⟨cap, l.drop k ++ l.take k⟩,
         (l.take k).foldl (fun col la => la.apply col t x y) c) := by
  intro k
  induction k with
  | zero => intro cap l c _ _; simp [AdditiveLayerStore.getColorLoop]
  | succ n ih =>
    intro cap l c hk hc
    match l with
    | [] => simp at hk
    | a :: rest =>
      have hkr : n ≤ rest.length := by simp at hk; omega
      have hlen : rest.length + 1 ≤ cap := by simpa using hc
      have hne : ((rest.length == cap) = false) := by simp; omega
      simp only [AdditiveLayerStore.getColorLoop, CircularQueue.serve]
      rw [show (⟨cap, rest⟩ : CircularQueue Layer).append a = ⟨cap, rest ++ [a]⟩ by
            simp [CircularQueue.append, CircularQueue.is_full, hne]]
      rw [ih cap (rest ++ [a]) (a.apply c t x y) (by simp; omega) (by simp; omega)]
      rw [List.take_append_of_le_length hkr, List.drop_append_of_le_length hkr]
      simp

/-- The first `special` loop serves the first `k` queue elements onto the
stack, reversing them. -/
theorem specialDrain_spec :
    ∀ (k capq : Nat) (l : List Layer) (capst : Nat) (st : List Layer),
      k ≤ l.length → l.length + st.length ≤ capst →
      AdditiveLayerStore.specialDrain k ⟨capq, l⟩ ⟨capst, st⟩ =
        (⟨capq, l.drop k⟩, ⟨capst, (l.take k).reverse ++ st⟩) := by
  intro k
  induction k with
  | zero => intro capq l capst st _ _; simp [AdditiveLayerStore.specialDrain]
  | succ n ih =>
    intro capq l capst st hk hc
    match l with
    | [] => simp at hk
    | a :: rest =>
      have hkr : n ≤ rest.length := by simp at hk; omega
      have hne : ((st.length == capst) = false) := by simp at hc ⊢; omega
      simp only [AdditiveLayerStore.specialDrain, CircularQueue.serve]
      rw [show (⟨capst, st⟩ : ArrayStack Layer).push a = ⟨capst, a :: st⟩ by
            simp [ArrayStack.push, ArrayStack.is_full, hne]]
      rw [ih capq rest capst (a :: st) hkr (by simp at hc ⊢; omega)]
      simp

/-- The second `special` loop pops the first `k` stack elements onto the
back of the queue. -/
theorem specialRefill_spec :
    ∀ (k capst : Nat) (st : List Layer) (capq : Nat) (l : List Layer),
      k ≤ st.length → l.length + st.length ≤ capq →
      AdditiveLayerStore.specialRefill k ⟨capst, st⟩ ⟨capq, l⟩ =
        (⟨capst, st.drop k⟩, ⟨capq, l ++ st.take k⟩) := by
  intro k
  induction k with
  | zero => intro capst st capq l _ _; simp [AdditiveLayerStore.specialRefill]
  | succ n ih =>
    intro capst st capq l hk hc
    match st with
    | [] => simp at hk
    | a :: rest =>
      have hkr : n ≤ rest.length := by simp at hk; omega
      have hne : ((l.length == capq) = false) := by simp at hc ⊢; omega
      simp only [AdditiveLayerStore.specialRefill, ArrayStack.pop]
      rw [show (⟨capq, l⟩ : CircularQueue Layer).append a = ⟨capq, l ++ [a]⟩ by
            simp [CircularQueue.append, CircularQueue.is_full, hne]]
      rw [ih capst rest capq (l ++ [a]) hkr (by simp at hc ⊢; omega)]
      simp

/-- `AdditiveLayerStore.special` reverses the stored layer order. -/
theorem additive_special_eq (s : AdditiveLayerStore)
    (h1 : s.current_layers.items.length ≤ s.current_layers.capacity)
    (h2 : s.current_layers.items.length ≤ AdditiveLayerStore.MAX_CAPACITY) :
    s.special = ⟨⟨s.current_layers.capacity, s.current_layers.items.reverse⟩⟩ := by
  obtain ⟨⟨cap, l⟩⟩ := s
  simp only [AdditiveLayerStore.special, CircularQueue.is_empty, CircularQueue.len] at *
  match l with
  | [] => simp
  | a :: rest =>
    simp only [List.isEmpty_cons, Bool.false_eq_true, if_false]
    rw [specialDrain_spec (a :: rest).length cap (a :: rest)
          AdditiveLayerStore.MAX_CAPACITY [] (Nat.le_refl _) (by simpa using h2)]
    simp only [List.drop_length, List.take_length, List.append_nil, ArrayStack.len]
    rw [specialRefill_spec (a :: rest).reverse.length AdditiveLayerStore.MAX_CAPACITY
          (a :: rest).reverse cap [] (by simp) (by simpa using h1)]
    simp

/-!  ## Claims C5, C6, C8 — the additive store -/

/-- Claim C5: in an `AdditiveLayerStore` holding `L1, L2, L3` added in
that order, `erase` returns `True` and removes `L1`, the first-added
layer, regardless of its argument; and with `L1, L2` stored, `get_color`
equals `L2.apply (L1.apply start t x y) t x y` — layers fold oldest to
newest. -/
theorem C5_additive_fifo (L1 L2 L3 Lx : Layer) (start : Color) (t x y : Nat) :
    ((((((AdditiveLayerStore.init.add L1).2.add L2).2.add L3).2.erase Lx).1 = true)
      ∧ (((((AdditiveLayerStore.init.add L1).2.add L2).2.add L3).2.erase Lx).2.current_layers.items
          = [L2, L3]))
    ∧ (((AdditiveLayerStore.init.add L1).2.add L2).2.get_color start t x y).2
        = L2.apply (L1.apply start t x y) t x y :=
  ⟨⟨rfl, rfl⟩, rfl⟩

/-- Claim C6: `special` twice on an additive store with no intervening
mutation restores the stored order exactly (queue reversal is its own
inverse). -/
theorem C6_additive_special_involution (s : AdditiveLayerStore)
    (h1 : s.current_layers.items.length ≤ s.current_layers.capacity)
    (h2 : s.current_layers.items.length ≤ AdditiveLayerStore.MAX_CAPACITY) :
    s.special.special = s := by
  rw [additive_special_eq s h1 h2]
  rw [additive_special_eq _ (by simpa using h1) (by simpa using h2)]
  simp

/-- Witness for C6 at a concrete two-layer store. -/
theorem C6_witness :
    ((AdditiveLayerStore.init.add layerA).2.add layerB).2.current_layers.items.length
        ≤ ((AdditiveLayerStore.init.add layerA).2.add layerB).2.current_layers.capacity
    ∧ ((AdditiveLayerStore.init.add layerA).2.add layerB).2.current_layers.items.length
        ≤ AdditiveLayerStore.MAX_CAPACITY
    ∧ ((AdditiveLayerStore.init.add layerA).2.add layerB).2.special.special
        = ((AdditiveLayerStore.init.add layerA).2.add layerB).2 :=
  ⟨by decide, by decide,
    C6_additive_special_involution ((AdditiveLayerStore.init.add layerA).2.add layerB).2
      (by decide) (by decide)⟩

/-- Claim C8: `get_color` on an additive store is a non-destructive read —
the store holds exactly the same layers in the same order afterwards. -/
theorem C8_additive_get_color_nondestructive (s : AdditiveLayerStore) (start : Color)
    (t x y : Nat) (h : s.current_layers.items.length ≤ s.current_layers.capacity) :
    (s.get_color start t x y).1 = s := by
  obtain ⟨⟨cap, l⟩⟩ := s
  simp only [AdditiveLayerStore.get_color, CircularQueue.is_empty, CircularQueue.len] at *
  match l with
  | [] => simp
  | a :: rest =>
    simp only [List.isEmpty_cons, Bool.false_eq_true, if_false]
    rw [getColorLoop_spec t x y (a :: rest).length cap (a :: rest) start (Nat.le_refl _) h]
    simp

/-- Witness for C8 at a concrete two-layer store. -/
theorem C8_witness :
    ((AdditiveLayerStore.init.add layerA).2.add layerB).2.current_layers.items.length
        ≤ ((AdditiveLayerStore.init.add layerA).2.add layerB).2.current_layers.capacity
    ∧ (((AdditiveLayerStore.init.add layerA).2.add layerB).2.get_color (7, 8, 9) 0 0 0).1
        = ((AdditiveLayerStore.init.add layerA).2.add layerB).2 :=
  ⟨by decide,
    C8_additive_get_color_nondestructive ((AdditiveLayerStore.init.add layerA).2.add layerB).2
      (7, 8, 9) 0 0 0 (by decide)⟩

/-!  ## Claims C1, C7 — the sequence store -/

/-- Claim C1 (code bug): `SequenceLayerStore.erase` tests
`layer.index ∈ current_layers_index` although `add` stored
`layer.index + 1` there.  Evaluated at a store whose only active layer is
`layerA` (catalog index 0), `add` reported "changed" and recorded `1` in
the index view, yet `erase layerA` returns "unchanged" (`False`) and
leaves the active layer in place, contradicting the claim (and the class
docstring "erase: Ensure this layer type is not applied"). -/
theorem C1_sequence_erase_offbyone :
    ((SequenceLayerStore.init.add layerA).1 = true)
    ∧ ((SequenceLayerStore.init.add layerA).2.current_layers_index.items = [1])
    ∧ ((SequenceLayerStore.init.add layerA).2.erase layerA
        = (false, (SequenceLayerStore.init.add layerA).2)) :=
  ⟨rfl, rfl, rfl⟩

/-- Claim C7: on a sequence store whose two views are in sync and whose
name view is sorted, `special` is a no-op when no layer is active, and
otherwise removes exactly the element at position `(k - 1) / 2` of the
name-ordered view (`k` = number of active layers), together with that
layer's `index + 1` in the index view. -/
theorem C7_sequence_special_median (s : SequenceLayerStore)
    (hk : s.current_layers_index.len = s.current_layers_name.len)
    (hsorted : List.Pairwise (fun a b : ListItem => strLe a.key b.key = true)
      s.current_layers_name.items) :
    (s.current_layers_name.items = [] → s.special = s)
    ∧ ∀ item : ListItem,
        s.current_layers_name.items.get?
            ((s.current_layers_name.items.length - 1) / 2) = some item →
          s.special =
            ⟨⟨s.current_layers_name.capacity,
              s.current_layers_name.items.eraseIdx
                ((s.current_layers_name.items.length - 1) / 2)⟩,
             s.current_layers_index.remove (item.value.index + 1)⟩ := by
  obtain ⟨⟨cap, l⟩, ⟨idx⟩⟩ := s
  simp only [ArraySortedList.len, BSet.len] at hk
  constructor
  · intro hl
    have hl2 : l = [] := hl
    subst hl2
    simp [SequenceLayerStore.special, ArraySortedList.is_empty]
  · intro item hitem
    match l, hk, hitem with
    | [], _, hitem => simp at hitem
    | a :: rest, hk, hitem =>
      simp only [SequenceLayerStore.special, ArraySortedList.is_empty, List.isEmpty_cons,
        Bool.false_eq_true, if_false, ArraySortedList.delete_at_index, BSet.len]
      rw [hk, hitem]

/-- The sequence store holding the four layers named `a`, `b`, `c`, `d`,
added in that order. -/
def abcdStore : SequenceLayerStore :=
  ((((SequenceLayerStore.init.add layerA).2.add layerB).2.add layerC).2.add layerD).2

/-- Witness for C7: with active layers named `a`, `b`, `c`, `d`
(`k = 4`), `special` removes the name at position `(4 - 1) / 2 = 1`,
i.e. `b`, from both views. -/
theorem C7_witness :
    (abcdStore.current_layers_index.len = abcdStore.current_layers_name.len)
    ∧ List.Pairwise (fun a b : ListItem => strLe a.key b.key = true)
        abcdStore.current_layers_name.items
    ∧ abcdStore.special.current_layers_name.items.map ListItem.key = ["a", "c", "d"]
    ∧ abcdStore.special.current_layers_index.items = [4, 3, 1] := by
  have hs : List.Pairwise (fun a b : ListItem => strLe a.key b.key = true)
      abcdStore.current_layers_name.items := by decide
  refine ⟨by decide, hs, ?_, ?_⟩ <;>
    rw [(C7_sequence_special_median abcdStore (by decide) hs).2 ⟨layerB, "b"⟩ rfl] <;> rfl

/-!  ## Claims C9, C10 — shared replay state -/

/-- Claim C9: the replay queues are class-level state.  Every
`ReplayTracker` method ignores which instance it was invoked on: calls
through two different instances `r1` and `r2` coincide, and an
`add_action` through `r1` lands in exactly the queue that `r2`'s
`start_replay` snapshots into the playback queue. -/
theorem C9_shared_class_queues (r1 r2 : Nat) (s : ReplayClassState) (a : PaintAction)
    (u : Bool) (g : Grid) :
    ReplayTracker.add_action r1 s a u = ReplayTracker.add_action r2 s a u
    ∧ ReplayTracker.start_replay r1 s = ReplayTracker.start_replay r2 s
    ∧ ReplayTracker.play_next_action r1 s g = ReplayTracker.play_next_action r2 s g
    ∧ (ReplayTracker.start_replay r2 (ReplayTracker.add_action r1 s a u)).playback_queue
        = s.replay_queue.append (a, u) :=
  ⟨rfl, rfl, rfl, rfl⟩

/-- Claim C10: `play_next_action` on an empty playback queue returns
`True` ("finished") and also replaces the recording queue with a fresh
empty `CircularQueue(10000)`, discarding whatever was recorded since the
last `start_replay`; the grid is untouched. -/
theorem C10_play_empty_resets_recording (self : Nat) (s : ReplayClassState) (g : Grid)
    (h : s.playback_queue.items = []) :
    ReplayTracker.play_next_action self s g
      = (true, { s with replay_queue := ⟨10000, []⟩ }, g) := by
  obtain ⟨rq, ⟨pcap, pitems⟩⟩ := s
  have h2 : pitems = [] := h
  subst h2
  rfl

/-- Witness for C10: a state with one recorded action and an empty
playback queue; the recorded action is discarded. -/
theorem C10_witness :
    (⟨⟨10000, [(blankAction, false)]⟩, ⟨10000, []⟩⟩ : ReplayClassState).playback_queue.items = []
    ∧ ReplayTracker.play_next_action 0
        ⟨⟨10000, [(blankAction, false)]⟩, ⟨10000, []⟩⟩ (Grid.init "SET" 1 1)
      = (true, ⟨⟨10000, []⟩, ⟨10000, []⟩⟩, Grid.init "SET" 1 1) :=
  ⟨rfl, C10_play_empty_resets_recording 0 ⟨⟨10000, [(blankAction, false)]⟩, ⟨10000, []⟩⟩
    (Grid.init "SET" 1 1) rfl⟩

/-!  ## Claim C2 — capacity boundary of both trackers -/

/-- Pushing actions into an `UndoTracker` saturates the undo stack at
`MAX_OPERATIONS`. -/
theorem undo_addActions_length :
    ∀ (acts : List PaintAction) (t : UndoTracker),
      t.undo_stack.capacity = UndoTracker.MAX_OPERATIONS →
      t.undo_stack.items.length ≤ UndoTracker.MAX_OPERATIONS →
      (UndoTracker.addActions t acts).undo_stack.items.length
        = min (t.undo_stack.items.length + acts.length) UndoTracker.MAX_OPERATIONS := by
  intro acts
  induction acts with
  | nil => intro t hcap hlen; simp [UndoTracker.addActions]; omega
  | cons a as ih =>
    intro t hcap hlen
    show (UndoTracker.addActions (t.add_action a) as).undo_stack.items.length = _
    by_cases hfull : t.undo_stack.items.length = UndoTracker.MAX_OPERATIONS
    · have hf : t.undo_stack.is_full = true := by
        simp [ArrayStack.is_full, hcap, hfull]
      rw [show t.add_action a = t by simp [UndoTracker.add_action, hf]]
      rw [ih t hcap hlen]
      simp only [List.length_cons]
      omega
    · have hf : t.undo_stack.is_full = false := by
        simp [ArrayStack.is_full, hcap]; omega
      have hstep : t.add_action a =
          ⟨⟨UndoTracker.MAX_OPERATIONS, a :: t.undo_stack.items⟩,
           ⟨UndoTracker.MAX_OPERATIONS, []⟩⟩ := by
        obtain ⟨⟨c, l⟩, rs⟩ := t
        have hc : c = UndoTracker.MAX_OPERATIONS := hcap
        subst hc
        simp_all [UndoTracker.add_action, UndoTracker.clear_redo, ArrayStack.push]
      rw [hstep, ih _ rfl (by simp; omega)]
      simp only [List.length_cons]
      omega

/-- Appending pairs to the replay recording queue saturates it at its
capacity. -/
theorem replay_addActions_length :
    ∀ (acts : List PaintAction) (self : Nat) (s : ReplayClassState),
      s.replay_queue.capacity = ReplayTracker.MAX_CAPACITY →
      s.replay_queue.items.length ≤ ReplayTracker.MAX_CAPACITY →
      (ReplayTracker.addActions self s acts).replay_queue.items.length
        = min (s.replay_queue.items.length + acts.length) ReplayTracker.MAX_CAPACITY := by
  intro acts
  induction acts with
  | nil => intro self s hcap hlen; simp [ReplayTracker.addActions]; omega
  | cons a as ih =>
    intro self s hcap hlen
    show (ReplayTracker.addActions self (ReplayTracker.add_action self s a false) as).replay_queue.items.length = _
    by_cases hfull : s.replay_queue.items.length = ReplayTracker.MAX_CAPACITY
    · have hstep : ReplayTracker.add_action self s a false = s := by
        obtain ⟨⟨c, l⟩, pq⟩ := s
        have hc : c = ReplayTracker.MAX_CAPACITY := hcap
        subst hc
        simp_all [ReplayTracker.add_action, CircularQueue.append, CircularQueue.is_full]
      rw [hstep, ih self s hcap hlen]
      simp only [List.length_cons]
      omega
    · have hstep : ReplayTracker.add_action self s a false =
          ⟨⟨ReplayTracker.MAX_CAPACITY, s.replay_queue.items ++ [(a, false)]⟩,
           s.playback_queue⟩ := by
        obtain ⟨⟨c, l⟩, pq⟩ := s
        have hc : c = ReplayTracker.MAX_CAPACITY := hcap
        subst hc
        simp_all [ReplayTracker.add_action, CircularQueue.append, CircularQueue.is_full]
      rw [hstep, ih self _ rfl (by simp; omega)]
      simp only [List.length_cons, List.length_append, List.length_nil]
      omega

/-- Claim C2: pushing `MAX_OPERATIONS + 1` actions into a fresh
`UndoTracker` leaves its stored count at `MAX_OPERATIONS`, and likewise
recording `MAX_OPERATIONS + 1` actions through `ReplayTracker.add_action`
leaves the recording queue's count at its capacity; the excess call on a
full tracker is a silent no-op returning the state unchanged (no
exception is modelled anywhere — fullness is absorbed). -/
theorem C2_capacity_boundary (acts : List PaintAction)
    (h : acts.length = UndoTracker.MAX_OPERATIONS + 1) (a : PaintAction) (self : Nat)
    (u : Bool) :
    (UndoTracker.addActions UndoTracker.init acts).undo_stack.items.length
        = UndoTracker.MAX_OPERATIONS
    ∧ (∀ t : UndoTracker, t.undo_stack.is_full = true → t.add_action a = t)
    ∧ (ReplayTracker.addActions self ReplayTracker.initState acts).replay_queue.items.length
        = ReplayTracker.MAX_CAPACITY
    ∧ (∀ s : ReplayClassState, s.replay_queue.is_full = true →
        ReplayTracker.add_action self s a u = s) := by
  refine ⟨?_, ?_, ?_, ?_⟩
  · rw [undo_addActions_length acts UndoTracker.init rfl (by simp [UndoTracker.init]), h]
    simp only [UndoTracker.init, List.length_nil]
    omega
  · intro t ht
    simp [UndoTracker.add_action, ht]
  · rw [replay_addActions_length acts self ReplayTracker.initState rfl (by simp [ReplayTracker.initState]), h]
    simp [ReplayTracker.initState, ReplayTracker.MAX_CAPACITY, UndoTracker.MAX_OPERATIONS]
  · intro s hs
    simp [ReplayTracker.add_action, CircularQueue.append, hs]

/-- Witness for C2 at `MAX_OPERATIONS + 1` copies of a concrete draw
action. -/
theorem C2_witness :
    (List.replicate (UndoTracker.MAX_OPERATIONS + 1) blankAction).length
        = UndoTracker.MAX_OPERATIONS + 1
    ∧ ((UndoTracker.addActions UndoTracker.init
          (List.replicate (UndoTracker.MAX_OPERATIONS + 1) blankAction)).undo_stack.items.length
          = UndoTracker.MAX_OPERATIONS
        ∧ (∀ t : UndoTracker, t.undo_stack.is_full = true → t.add_action blankAction = t)
        ∧ (ReplayTracker.addActions 0 ReplayTracker.initState
            (List.replicate (UndoTracker.MAX_OPERATIONS + 1) blankAction)).replay_queue.items.length
            = ReplayTracker.MAX_CAPACITY
        ∧ (∀ s : ReplayClassState, s.replay_queue.is_full = true →
            ReplayTracker.add_action 0 s blankAction false = s)) :=
  ⟨by simp, C2_capacity_boundary (List.replicate (UndoTracker.MAX_OPERATIONS + 1) blankAction)
    (by simp) blankAction 0 false⟩

/-!  ## Claim C3 — replay determinism -/

/-- Claim C3: after recording `A1` (a special marker), `A2` (a draw) and
`A2` again flagged `is_undo = true`, then calling `start_replay`, the
next three `play_next_action` calls apply exactly `grid.special`, `A2`'s
forward effect and `A2`'s inverse effect, in that order, each returning
`False`, and the fourth call returns `True` leaving the grid unchanged. -/
theorem C3_replay_determinism (self : Nat) (A2 : PaintAction)
    (h2 : A2.is_special = false) (g : Grid) :
    let A1 : PaintAction := ⟨[], true⟩
    let s1 := ReplayTracker.add_action self
      (ReplayTracker.add_action self
        (ReplayTracker.add_action self ReplayTracker.initState A1 false) A2 false) A2 true
    let s2 := ReplayTracker.start_replay self s1
    let p1 := ReplayTracker.play_next_action self s2 g
    let p2 := ReplayTracker.play_next_action self p1.2.1 p1.2.2
    let p3 := ReplayTracker.play_next_action self p2.2.1 p2.2.2
    let p4 := ReplayTracker.play_next_action self p3.2.1 p3.2.2
    (p1.1 = false ∧ p1.2.2 = g.special)
    ∧ (p2.1 = false ∧ p2.2.2 = A2.redo_apply g.special)
    ∧ (p3.1 = false ∧ p3.2.2 = A2.undo_apply (A2.redo_apply g.special))
    ∧ (p4.1 = true ∧ p4.2.2 = A2.undo_apply (A2.redo_apply g.special)) := by
  intro A1 s1 s2 p1 p2 p3 p4
  have hp1 : p1 = (false,
      ⟨⟨10000, []⟩, ⟨10000, [(A2, false), (A2, true)]⟩⟩, g.special) := rfl
  have hp2 : p2 = (false,
      ⟨⟨10000, []⟩, ⟨10000, [(A2, true)]⟩⟩, A2.redo_apply g.special) := by
    show ReplayTracker.play_next_action self p1.2.1 p1.2.2 = _
    rw [hp1]
    simp [ReplayTracker.play_next_action, CircularQueue.serve, h2]
  have hp3 : p3 = (false,
      ⟨⟨10000, []⟩, ⟨10000, []⟩⟩, A2.undo_apply (A2.redo_apply g.special)) := by
    show ReplayTracker.play_next_action self p2.2.1 p2.2.2 = _
    rw [hp2]
    rfl
  have hp4 : p4 = (true,
      ⟨⟨10000, []⟩, ⟨10000, []⟩⟩, A2.undo_apply (A2.redo_apply g.special)) := by
    show ReplayTracker.play_next_action self p3.2.1 p3.2.2 = _
    rw [hp3]
    rfl
  rw [hp1, hp2, hp3, hp4]
  exact ⟨⟨rfl, rfl⟩, ⟨rfl, rfl⟩, ⟨rfl, rfl⟩, rfl, rfl⟩

/-- Witness for C3 with a concrete draw action and a concrete 1×1
additive grid. -/
theorem C3_witness :
    blankAction.is_special = false
    ∧ (let A1 : PaintAction := ⟨[], true⟩
       let s1 := ReplayTracker.add_action 0
         (ReplayTracker.add_action 0
           (ReplayTracker.add_action 0 ReplayTracker.initState A1 false) blankAction false)
         blankAction true
       let s2 := ReplayTracker.start_replay 0 s1
       let p1 := ReplayTracker.play_next_action 0 s2 (Grid.init "ADD" 1 1)
       let p2 := ReplayTracker.play_next_action 0 p1.2.1 p1.2.2
       let p3 := ReplayTracker.play_next_action 0 p2.2.1 p2.2.2
       let p4 := ReplayTracker.play_next_action 0 p3.2.1 p3.2.2
       (p1.1 = false ∧ p1.2.2 = (Grid.init "ADD" 1 1).special)
       ∧ (p2.1 = false ∧ p2.2.2 = blankAction.redo_apply (Grid.init "ADD" 1 1).special)
       ∧ (p3.1 = false ∧ p3.2.2
            = blankAction.undo_apply (blankAction.redo_apply (Grid.init "ADD" 1 1).special))
       ∧ (p4.1 = true ∧ p4.2.2
            = blankAction.undo_apply (blankAction.redo_apply (Grid.init "ADD" 1 1).special))) :=
  ⟨rfl, C3_replay_determinism 0 blankAction rfl (Grid.init "ADD" 1 1)⟩

/-!  ## Claim C4 — undo/redo round trip -/

/-- Pushing actions into a fresh-capacity tracker with an empty redo
stack stacks them in reverse order and leaves the redo stack empty. -/
theorem addActions_stack_spec :
    ∀ (acts l : List PaintAction),
      l.length + acts.length ≤ UndoTracker.MAX_OPERATIONS →
      UndoTracker.addActions
          ⟨⟨UndoTracker.MAX_OPERATIONS, l⟩, ⟨UndoTracker.MAX_OPERATIONS, []⟩⟩ acts
        = ⟨⟨UndoTracker.MAX_OPERATIONS, acts.reverse ++ l⟩,
           ⟨UndoTracker.MAX_OPERATIONS, []⟩⟩ := by
  intro acts
  induction acts with
  | nil => intro l _; simp [UndoTracker.addActions]
  | cons a as ih =>
    intro l h
    have hne : ((l.length == UndoTracker.MAX_OPERATIONS) = false) := by
      simp at h ⊢; omega
    show UndoTracker.addActions
        ((⟨⟨UndoTracker.MAX_OPERATIONS, l⟩,
           ⟨UndoTracker.MAX_OPERATIONS, []⟩⟩ : UndoTracker).add_action a) as = _
    rw [show (⟨⟨UndoTracker.MAX_OPERATIONS, l⟩,
          ⟨UndoTracker.MAX_OPERATIONS, []⟩⟩ : UndoTracker).add_action a
        = ⟨⟨UndoTracker.MAX_OPERATIONS, a :: l⟩, ⟨UndoTracker.MAX_OPERATIONS, []⟩⟩ by
      simp [UndoTracker.add_action, UndoTracker.clear_redo, ArrayStack.push,
        ArrayStack.is_full, hne]]
    rw [ih (a :: l) (by simp at h ⊢; omega)]
    simp

/-- `undoN` over the full undo stack empties it onto the redo stack,
folds the inverse effects over the grid, and returns the popped actions
in order. -/
theorem undoN_spec :
    ∀ (l r : List PaintAction) (g : Grid) (cap : Nat),
      l.length + r.length ≤ cap →
      UndoTracker.undoN l.length ⟨⟨cap, l⟩, ⟨cap, r⟩⟩ g
        = (⟨⟨cap, []⟩, ⟨cap, l.reverse ++ r⟩⟩,
           l.foldl (fun gr a => a.undo_apply gr) g, l.map some) := by
  intro l
  induction l with
  | nil => intro r g cap _; simp [UndoTracker.undoN]
  | cons a as ih =>
    intro r g cap h
    have hne : ((r.length == cap) = false) := by simp at h ⊢; omega
    have hundo : UndoTracker.undo ⟨⟨cap, a :: as⟩, ⟨cap, r⟩⟩ g
        = (⟨⟨cap, as⟩, ⟨cap, a :: r⟩⟩, a.undo_apply g, some a) := by
      simp [UndoTracker.undo, ArrayStack.pop, ArrayStack.push, ArrayStack.is_full, hne]
    simp only [List.length_cons, UndoTracker.undoN, hundo]
    rw [ih (a :: r) (a.undo_apply g) cap (by simp at h ⊢; omega)]
    simp

/-- `redoN` over the full redo stack restacks it onto the undo stack,
folds the forward effects over the grid, and returns the popped actions
in order. -/
theorem redoN_spec :
    ∀ (r u : List PaintAction) (g : Grid) (cap : Nat),
      r.length + u.length ≤ cap →
      UndoTracker.redoN r.length ⟨⟨cap, u⟩, ⟨cap, r⟩⟩ g
        = (⟨⟨cap, r.reverse ++ u⟩, ⟨cap, []⟩⟩,
           r.foldl (fun gr a => a.redo_apply gr) g, r.map some) := by
  intro r
  induction r with
  | nil => intro u g cap _; simp [UndoTracker.redoN]
  | cons a as ih =>
    intro u g cap h
    have hne : ((u.length == cap) = false) := by simp at h ⊢; omega
    have hredo : UndoTracker.redo ⟨⟨cap, u⟩, ⟨cap, a :: as⟩⟩ g
        = (⟨⟨cap, a :: u⟩, ⟨cap, as⟩⟩, a.redo_apply g, some a) := by
      simp [UndoTracker.redo, ArrayStack.pop, ArrayStack.push, ArrayStack.is_full, hne]
    simp only [List.length_cons, UndoTracker.redoN, hredo]
    rw [ih (a :: u) (a.redo_apply g) cap (by simp at h ⊢; omega)]
    simp

/-- Undoing a forward fold in reverse order cancels it, provided each
action's inverse effect is a left inverse of its forward effect. -/
theorem foldl_undo_cancels_redo :
    ∀ (acts : List PaintAction) (g : Grid),
      (∀ a ∈ acts, ∀ gr : Grid, a.undo_apply (a.redo_apply gr) = gr) →
      acts.reverse.foldl (fun gr a => a.undo_apply gr)
        (acts.foldl (fun gr a => a.redo_apply gr) g) = g := by
  intro acts
  induction acts with
  | nil => intro g _; simp
  | cons a as ih =>
    intro g hinv
    simp only [List.reverse_cons, List.foldl_append, List.foldl_cons, List.foldl_nil]
    rw [ih (a.redo_apply g) (fun b hb => hinv b (List.mem_cons_of_mem a hb))]
    exact hinv a (List.mem_cons_self a as) g

/-- Claim C4 counterexample ingredients: a 1×1 additive grid that already
holds one layer before the tracked action is applied. -/
def cxP : Layer := ⟨0, "p", fun c _ _ _ => c⟩

/-- The layer added by the tracked counterexample action. -/
def cxL : Layer := ⟨1, "l", fun c _ _ _ => c⟩

/-- The starting grid of the counterexample: a 1×1 additive grid whose
cell already holds `cxP`. -/
def cxG0 : Grid := PaintStep.applyForward (Grid.init "ADD" 1 1) ⟨0, 0, cxP, PaintOp.add⟩

/-- The single tracked action of the counterexample: draw `cxL` on the
cell. -/
def cxA : PaintAction := ⟨[⟨0, 0, cxL, PaintOp.add⟩], false⟩

/-- The grid after applying the tracked action forward. -/
def cxGf : Grid := cxA.redo_apply cxG0

/-- One `undo` call of the counterexample run. -/
def cxRun1 : UndoTracker × Grid × List (Option PaintAction) :=
  UndoTracker.undoN 1 (UndoTracker.addActions UndoTracker.init [cxA]) cxGf

/-- One `redo` call of the counterexample run. -/
def cxRun2 : UndoTracker × Grid × List (Option PaintAction) :=
  UndoTracker.redoN 1 cxRun1.1 cxRun1.2.1

/-- The layer indexes held by each additive cell of a grid. -/
def gridIdx (g : Grid) : List (List (List Nat)) :=
  g.grid.map (fun row => row.map (fun v =>
    match v with
    | .additive s => s.current_layers.items.map Layer.index
    | _ => []))

/-- Claim C4 is false as stated: with one action (`N = 1`) pushed and
applied to a grid whose additive cell already held a layer, `undo` then
`redo` leaves the cell holding `[cxL, cxL]` instead of the original
`[cxP, cxL]` — additive `erase` during `undo_apply` removes the oldest
layer, not the one the action added. -/
theorem C4_counterexample : ¬ (cxRun2.2.1 = cxGf) := by
  intro h
  have h2 := congrArg gridIdx h
  have hL : gridIdx cxRun2.2.1 = [[[1, 1]]] := by decide
  have hR : gridIdx cxGf = [[[0, 1]]] := by decide
  rw [hL, hR] at h2
  exact absurd h2 (by decide)

/-- Claim C4 as amended: for any sequence of `N ≤ MAX_OPERATIONS` actions
pushed via `add_action` and applied to a grid, `undo` `N` times followed
by `redo` `N` times returns the grid to its state after the original `N`
actions provided every pushed action's inverse effect is a left inverse
of its forward effect; unconditionally, the `redo` calls return the same
action objects as the matching `undo` calls, in reverse call order. -/
theorem C4_undo_redo_roundtrip (acts : List PaintAction) (g0 : Grid)
    (hN : acts.length ≤ UndoTracker.MAX_OPERATIONS) :
    let t := UndoTracker.addActions UndoTracker.init acts
    let gf := acts.foldl (fun gr a => a.redo_apply gr) g0
    let r1 := UndoTracker.undoN acts.length t gf
    let r2 := UndoTracker.redoN acts.length r1.1 r1.2.1
    ((∀ a ∈ acts, ∀ gr : Grid, a.undo_apply (a.redo_apply gr) = gr) → r2.2.1 = gf)
    ∧ r2.2.2 = r1.2.2.reverse := by
  intro t gf r1 r2
  have ht : t = ⟨⟨UndoTracker.MAX_OPERATIONS, acts.reverse⟩,
      ⟨UndoTracker.MAX_OPERATIONS, []⟩⟩ := by
    simpa using addActions_stack_spec acts [] (by simpa using hN)
  have h1 : r1 = (⟨⟨UndoTracker.MAX_OPERATIONS, []⟩, ⟨UndoTracker.MAX_OPERATIONS, acts⟩⟩,
      acts.reverse.foldl (fun gr a => a.undo_apply gr) gf, acts.reverse.map some) := by
    show UndoTracker.undoN acts.length t gf = _
    rw [ht, show acts.length = acts.reverse.length by simp]
    rw [undoN_spec acts.reverse [] gf UndoTracker.MAX_OPERATIONS (by simpa using hN)]
    simp
  have h2 : r2 = (⟨⟨UndoTracker.MAX_OPERATIONS, acts.reverse⟩, ⟨UndoTracker.MAX_OPERATIONS, []⟩⟩,
      acts.foldl (fun gr a => a.redo_apply gr)
        (acts.reverse.foldl (fun gr a => a.undo_apply gr) gf),
      acts.map some) := by
    show UndoTracker.redoN acts.length r1.1 r1.2.1 = _
    rw [h1]
    rw [redoN_spec acts [] (acts.reverse.foldl (fun gr a => a.undo_apply gr) gf)
      UndoTracker.MAX_OPERATIONS (by simpa using hN)]
    simp
  constructor
  · intro hinv
    rw [h2]
    show acts.foldl (fun gr a => a.redo_apply gr)
        (acts.reverse.foldl (fun gr a => a.undo_apply gr) gf) = gf
    rw [show (gf : Grid) = acts.foldl (fun gr a => a.redo_apply gr) g0 from rfl,
      foldl_undo_cancels_redo acts g0 hinv]
  · rw [h1, h2]
    simp

/-- Witness for the amended C4 at one concrete action on a concrete 1×1
set-style grid; the concrete action's inverse cancels its forward
effect, so both conjuncts are exercised. -/
theorem C4_witness :
    [blankAction].length ≤ UndoTracker.MAX_OPERATIONS
    ∧ (let t := UndoTracker.addActions UndoTracker.init [blankAction]
       let gf := [blankAction].foldl (fun gr a => a.redo_apply gr) (Grid.init "SET" 1 1)
       let r1 := UndoTracker.undoN [blankAction].length t gf
       let r2 := UndoTracker.redoN [blankAction].length r1.1 r1.2.1
       ((∀ a ∈ [blankAction], ∀ gr : Grid, a.undo_apply (a.redo_apply gr) = gr) →
          r2.2.1 = gf)
       ∧ r2.2.2 = r1.2.2.reverse) :=
  ⟨by simp [UndoTracker.MAX_OPERATIONS],
    C4_undo_redo_roundtrip [blankAction] (Grid.init "SET" 1 1)
      (by simp [UndoTracker.MAX_OPERATIONS])⟩

end Paint
